import Mathlib

/-!
Verification of the numerical-analysis core of the Time-Series-Demo
application (src/tm.py) against its specification.

The script in src/tm.py is glue code over pandas and statsmodels: it calls
seasonal_decompose, adfuller, acf, pacf, pct_change, rolling, dropna, std,
and applies threshold heuristics to their outputs.  The threshold logic,
the lag-bound computation and the DataFrame column assignment are embedded
directly from src/tm.py; the library algorithms (classical additive
decomposition, ACF/PACF) are not part of the repository, so they are
modelled from the specification (sections 4.2 and 4.4), as are the
documented pandas semantics of pct_change / dropna / std that the script
relies on.  Machine floats are embedded as exact rationals, with an
explicit four-way value type (finite / +inf / -inf / NaN) where the claims
concern the IEEE special values.
-/

namespace TimeSeriesDemo

/-- Model of an IEEE double as seen by pandas: a finite value (embedded as
an exact rational), one of the two infinities, or NaN (pandas' missing
marker). -/
inductive PVal where
  | num (q : ℚ)
  | pinf
  | ninf
  | nan
deriving DecidableEq, Repr

/-- Mean of a list of rationals, as computed by pandas Series.mean on a
fully valid series; division by zero (empty list) yields 0 in this
embedding. -/
def listMean (l : List ℚ) : ℚ := l.sum / l.length

/- ### Decomposer (spec section 4.2)

Modelled from the spec: statsmodels.tsa.seasonal.seasonal_decompose
(called at src/tm.py line 44) is library code absent from the repository.
The definitions below follow the algorithm of spec section 4.2 step by
step. -/

/-- Error raised by the Decomposer when the series is shorter than two
full periods (spec sections 4.2 and 7). -/
inductive DecompError where
  | insufficientData
deriving DecidableEq, Repr

/-- Modelled from the spec (section 4.2 step 1): centered moving average
of window size `p` at index `i`; `none` within `floor(p/2)` of either
boundary.  For even `p` the two-stage average collapses to the standard
half-weighted window of span `p + 1`. -/
def trendAt (y : List ℚ) (p i : ℕ) : Option ℚ :=
  let n := y.length
  let h := p / 2
  if h ≤ i ∧ i + h < n then
    some (if p % 2 = 1 then
            ((List.range p).map (fun j => y.getD (i - h + j) 0)).sum / p
          else
            (y.getD (i - h) 0 / 2
              + ((List.range (p - 1)).map (fun j => y.getD (i - h + 1 + j) 0)).sum
              + y.getD (i + h) 0 / 2) / p)
  else none

/-- Modelled from the spec (section 4.2 step 3): the raw seasonal index of
phase `q` is the average of the detrended values at indices congruent to
`q` modulo the period. -/
def seasonalIdxRaw (y : List ℚ) (p q : ℕ) : ℚ :=
  let idxs := (List.range y.length).filter
    (fun i => i % p = q ∧ (trendAt y p i).isSome)
  listMean (idxs.map (fun i => y.getD i 0 - (trendAt y p i).getD 0))

/-- Modelled from the spec (section 4.2 step 4): the `p` raw seasonal
indices, normalized by subtracting their mean. -/
def seasonalIdx (y : List ℚ) (p : ℕ) : List ℚ :=
  let raw := (List.range p).map (seasonalIdxRaw y p)
  let m := raw.sum / p
  raw.map (fun x => x - m)

/-- Modelled from the spec (section 4.2 step 5): the seasonal component is
the normalized indices tiled across the series. -/
def seasonalAt (y : List ℚ) (p i : ℕ) : ℚ :=
  (seasonalIdx y p).getD (i % p) 0

/-- Modelled from the spec (section 4.2 step 6): the residual is
observed minus trend minus seasonal, defined exactly where the trend is. -/
def residAt (y : List ℚ) (p i : ℕ) : Option ℚ :=
  (trendAt y p i).map (fun t => y.getD i 0 - t - seasonalAt y p i)

/-- Result of the additive decomposition: four aligned sequences (spec
section 3); trend and residual carry a missing marker near the
boundaries. -/
structure Decomposition where
  observed : List ℚ
  trend : List (Option ℚ)
  seasonal : List ℚ
  resid : List (Option ℚ)
deriving DecidableEq, Repr

/-- Modelled from the spec (section 4.2): the Decomposer.  Fails with
InsufficientDataError when the series length is below twice the period;
otherwise returns the four aligned component sequences. -/
def seasonal_decompose (y : List ℚ) (p : ℕ) : Except DecompError Decomposition :=
  if y.length < 2 * p then .error .insufficientData
  else .ok
    { observed := y
      trend := (List.range y.length).map (trendAt y p)
      seasonal := (List.range y.length).map (seasonalAt y p)
      resid := (List.range y.length).map (residAt y p) }

/- ### Heuristic analyzer thresholds (src/tm.py lines 66-88) -/

/-- Embeds pandas Series.dropna on a component carrying missing markers
(src/tm.py line 66: decomposition.trend.dropna()). -/
def dropnaOpt (l : List (Option ℚ)) : List ℚ := l.reduceOption

/-- Embeds src/tm.py line 66: the trend-present verdict is the exact
inequality mean-of-defined-trend-values not equal to zero. -/
def trendPresent (d : Decomposition) : Bool :=
  decide (listMean (dropnaOpt d.trend) ≠ 0)

/-- Significance threshold hard-coded at src/tm.py line 85. -/
def adfSignificance : ℚ := 5 / 100

/-- Embeds src/tm.py line 85: the series is reported stationary exactly
when the ADF p-value (result[1], produced by the library test) is
strictly below the threshold. -/
def stationarityVerdict (pvalue : ℚ) : Bool := decide (pvalue < adfSignificance)

/- ### Correlation engine (src/tm.py lines 91-93, spec section 4.4) -/

/-- Embeds src/tm.py line 91: lags = min(len(df) - 1, 40), computed from
the full table length. -/
def lagBound (n : ℕ) : ℕ := min (n - 1) 40

/-- Deviation of the value at index `t` from the series mean. -/
def devAt (y : List ℚ) (t : ℕ) : ℚ := y.getD t 0 - listMean y

/-- Modelled from the spec (section 4.4): the lag-0 autocovariance sum,
the normalizer of the ACF. -/
def acfDen (y : List ℚ) : ℚ :=
  ((List.range y.length).map (fun t => devAt y t * devAt y t)).sum

/-- Modelled from the spec (section 4.4): the lag-k autocovariance sum. -/
def acfNum (y : List ℚ) (k : ℕ) : ℚ :=
  ((List.range (y.length - k)).map (fun j => devAt y (j + k) * devAt y j)).sum

/-- Modelled from the spec (section 4.4): the sample autocorrelation at
lag `k`, the biased autocovariance normalized by the lag-0
autocovariance. -/
def acfAt (y : List ℚ) (k : ℕ) : ℚ := acfNum y k / acfDen y

/-- The ACF sequence for lags 0..L, as returned by acf(nlags=L) at
src/tm.py line 92. -/
def acfList (y : List ℚ) (L : ℕ) : List ℚ := (List.range (L + 1)).map (acfAt y)

/-- Modelled from the spec (section 4.4): one Durbin-Levinson state, the
order-k predictor coefficients together with the prediction-error
variance (in correlation units, so the order-0 error is 1). -/
def dlState (ρ : ℕ → ℚ) : ℕ → List ℚ × ℚ
  | 0 => ([], 1)
  | Nat.succ k =>
    let pr := dlState ρ k
    let φ := pr.1
    let s := (φ.zipWith (fun a r => a * r)
      ((List.range k).map (fun j => ρ (k - j)))).sum
    let φkk := (ρ (k + 1) - s) / pr.2
    ((φ.zipWith (fun a b => a - φkk * b) φ.reverse) ++ [φkk],
      pr.2 * (1 - φkk * φkk))

/-- Modelled from the spec (sections 3 and 4.4): the partial
autocorrelation at lag `k` is the last order-k Durbin-Levinson
coefficient; at lag 0 it is 1 by convention, as the data model states. -/
def pacfAt (y : List ℚ) : ℕ → ℚ
  | 0 => 1
  | Nat.succ k => ((dlState (acfAt y) (k + 1)).1).getLast?.getD 0

/-- The PACF sequence for lags 0..L, as returned by pacf(nlags=L) at
src/tm.py line 93. -/
def pacfList (y : List ℚ) (L : ℕ) : List ℚ := (List.range (L + 1)).map (pacfAt y)

/- ### Pandas value-level operations (src/tm.py lines 91-92, 111-113) -/

/-- True exactly on the NaN value. -/
def isNaN : PVal → Bool
  | .nan => true
  | _ => false

/-- True exactly on the two infinities. -/
def isInf : PVal → Bool
  | .pinf => true
  | .ninf => true
  | _ => false

/-- Finite payload of a value, if any. -/
def toNum : PVal → Option ℚ
  | .num q => some q
  | _ => none

/-- Embeds pandas Series.dropna (src/tm.py lines 92, 111): it removes NaN
entries only; infinities are not missing values and are kept. -/
def dropnaV (l : List PVal) : List PVal := l.filter (fun v => ¬ isNaN v)

/-- Embeds df['Passengers'].dropna() followed by numeric use (src/tm.py
lines 84, 92-93): the validated input column holds finite values or NaN,
so dropping NaN leaves the finite payloads. -/
def dropnaNum (l : List PVal) : List ℚ := l.filterMap toNum

/-- Embeds one step of pandas Series.pct_change (src/tm.py line 111):
previous value `d`, current value `v`, result (v - d) / d under IEEE
division, so a zero denominator gives an infinity (or NaN for 0/0); a
non-finite operand gives NaN (the validated input has none). -/
def pcStep (d v : PVal) : PVal :=
  match d, v with
  | .num a, .num b =>
      if a = 0 then (if b = 0 then .nan else if 0 < b then .pinf else .ninf)
      else .num ((b - a) / a)
  | _, _ => .nan

/-- Embeds pandas Series.pct_change (src/tm.py line 111): entry 0 is NaN,
entry t is the relative change from entry t-1. -/
def pctChangeV (l : List PVal) : List PVal :=
  (List.range l.length).map
    (fun t => if t = 0 then .nan else pcStep (l.getD (t - 1) .nan) (l.getD t .nan))

/-- Sample variance with the pandas default ddof = 1; the rational
embedding of Series.std tracks this square of the standard deviation,
since a square root has no rational value.  Claims about std concern only
its NaN/infinity behavior, which the square shares. -/
def sampleVarQ (l : List ℚ) : ℚ :=
  ((l.map (fun x => (x - listMean l) * (x - listMean l))).sum) / ((l.length : ℚ) - 1)

/-- Embeds pandas Series.std (src/tm.py line 112): NaN entries are
skipped (skipna default), an infinite entry makes the result NaN, fewer
than two remaining points give NaN (ddof = 1), and otherwise the result
is finite (tracked by the sample variance, see sampleVarQ). -/
def stdVal (l : List PVal) : PVal :=
  let kept := dropnaV l
  if kept.any (fun v => isInf v) then .nan
  else if kept.length < 2 then .nan
  else .num (sampleVarQ (kept.filterMap toNum))

/-- The returns column written at src/tm.py line 111.  The assignment
df['Returns'] = df['Passengers'].pct_change().dropna() aligns the
right-hand series on the frame index, reinserting NaN at the labels that
dropna removed (index labels are unique per the input contract), so the
stored column equals the raw pct_change output. -/
def returnsColumn (y : List PVal) : List PVal := pctChangeV y

/-- The list of entries that actually enter the standard-deviation
computation at src/tm.py line 112: the returns column with NaN entries
skipped. -/
def stdInput (y : List PVal) : List PVal := dropnaV (returnsColumn y)

/-- Embeds the volatility computation of src/tm.py lines 111-112:
standard deviation of the stored returns column. -/
def volatility (y : List PVal) : PVal := stdVal (returnsColumn y)

/- ### DataFrame mutation (src/tm.py line 111) -/

/-- Minimal model of the pandas DataFrame handled by the script: an index
of labels and named columns of values. -/
structure Frame where
  index : List String
  cols : List (String × List PVal)
deriving DecidableEq, Repr

/-- Column lookup, df[name]. -/
def getCol (f : Frame) (name : String) : Option (List PVal) :=
  (f.cols.find? (fun c => c.1 = name)).map Prod.snd

/-- Column assignment, df[name] = vals: overwrite in place when the name
exists, append a new column otherwise. -/
def setCol (f : Frame) (name : String) (vals : List PVal) : Frame :=
  if f.cols.any (fun c => c.1 = name) then
    ⟨f.index, f.cols.map (fun c => if c.1 = name then (name, vals) else c)⟩
  else ⟨f.index, f.cols ++ [(name, vals)]⟩

/-- Embeds the side effect of src/tm.py line 111 on the caller's frame:
df['Returns'] = df['Passengers'].pct_change().dropna() (see
returnsColumn for the alignment of the right-hand side). -/
def volatilityStep (f : Frame) : Frame :=
  match getCol f "Passengers" with
  | some col => setCol f "Returns" (returnsColumn col)
  | none => f

/- ### Helper lemmas -/

/-- Sum of a list after subtracting a constant from every entry. -/
lemma sum_map_sub_const (l : List ℚ) (m : ℚ) :
    (l.map (fun x => x - m)).sum = l.sum - l.length * m := by
  induction l with
  | nil => simp
  | cons a l ih =>
    simp only [List.map_cons, List.sum_cons, ih, List.length_cons]
    push_cast
    ring

/-- Reading a whole list back off by positions. -/
lemma sum_range_getD (l : List ℚ) :
    ((List.range l.length).map (fun i => l.getD i 0)).sum = l.sum := by
  induction l with
  | nil => simp
  | cons a l ih =>
    rw [List.length_cons, List.range_succ_eq_map, List.map_cons, List.map_map,
      List.sum_cons]
    have h2 : ((fun i => (a :: l).getD i 0) ∘ Nat.succ) = fun i => l.getD i 0 := by
      funext i
      simp [List.getD_cons_succ]
    rw [h2, ih]
    simp

/-- A list of nonnegative rationals with a positive member has a positive
sum. -/
lemma sum_pos_of_mem {l : List ℚ} (hn : ∀ x ∈ l, 0 ≤ x) {x : ℚ}
    (hx : x ∈ l) (hpos : 0 < x) : 0 < l.sum := by
  induction l with
  | nil => cases hx
  | cons a l ih =>
    rw [List.sum_cons]
    rcases List.mem_cons.mp hx with h | h
    · subst h
      exact add_pos_of_pos_of_nonneg hpos
        (List.sum_nonneg (fun b hb => hn b (List.mem_cons_of_mem _ hb)))
    · exact add_pos_of_nonneg_of_pos (hn a (List.mem_cons_self a l))
        (ih (fun b hb => hn b (List.mem_cons_of_mem _ hb)) h)

/-- The concrete decomposition of the length-4 series [1, 2, 3, 4] with
period 2, used by the witnesses. -/
def exampleDecomp : Decomposition :=
  { observed := [1, 2, 3, 4]
    trend := [none, some 2, some 3, none]
    seasonal := [0, 0, 0, 0]
    resid := [none, some 0, some 0, none] }

/-- Evaluation of the Decomposer on the witness input. -/
lemma seasonal_decompose_example :
    seasonal_decompose [1, 2, 3, 4] 2 = .ok exampleDecomp := by
  simp only [seasonal_decompose, exampleDecomp]
  norm_num [trendAt, seasonalAt, seasonalIdx, seasonalIdxRaw, residAt, listMean,
    List.range_succ]

/- ### Claims -/

/-- C4: the stationarity verdict of src/tm.py line 85 is true exactly
when the ADF p-value is strictly below the significance threshold, whose
value is 0.05. -/
theorem c4_stationarity_verdict (pvalue : ℚ) :
    stationarityVerdict pvalue = true ↔ pvalue < 5 / 100 := by
  simp [stationarityVerdict, adfSignificance]

/-- C5: for an input table of length n, src/tm.py line 91 requests the
maximum lag min(n - 1, 40) for both ACF and PACF, and the resulting
sequences are indexed by lags 0..L with L = min(n - 1, 40). -/
theorem c5_lag_bound (col : List PVal) :
    lagBound col.length = min (col.length - 1) 40 ∧
    (acfList (dropnaNum col) (lagBound col.length)).length = lagBound col.length + 1 ∧
    (pacfList (dropnaNum col) (lagBound col.length)).length = lagBound col.length + 1 := by
  refine ⟨rfl, ?_, ?_⟩ <;> simp [acfList, pacfList]

/-- C6: on a series shorter than twice the period the Decomposer fails
with InsufficientDataError, and returns no substitute result. -/
theorem c6_insufficient_data (y : List ℚ) (p : ℕ) (h : y.length < 2 * p) :
    seasonal_decompose y p = .error .insufficientData ∧
      ∀ d : Decomposition, seasonal_decompose y p ≠ .ok d := by
  refine ⟨by simp [seasonal_decompose, h], fun d hc => ?_⟩
  simp [seasonal_decompose, h] at hc

/-- Witness for C6: the length-3 series [1, 2, 3] with period 2. -/
theorem c6_insufficient_data_witness :
    seasonal_decompose [1, 2, 3] 2 = .error .insufficientData :=
  (c6_insufficient_data [1, 2, 3] 2 (by decide)).1

/-- C10: on the concrete five-row column [1, NaN, 2, 3, 4] the lag bound
of src/tm.py line 91 is computed from the full table length, and equals
the length of the NaN-dropped series handed to acf and pacf, violating
the requirement that the maximum lag stay strictly below the length of
the series actually analyzed. -/
theorem c10_lag_bound_overrun :
    PVal.nan ∈ [PVal.num 1, PVal.nan, PVal.num 2, PVal.num 3, PVal.num 4] ∧
    (dropnaNum [PVal.num 1, PVal.nan, PVal.num 2, PVal.num 3, PVal.num 4]).length ≤
      lagBound [PVal.num 1, PVal.nan, PVal.num 2, PVal.num 3, PVal.num 4].length := by
  refine ⟨by simp, ?_⟩
  simp [dropnaNum, toNum, lagBound]

/-- Reading positions 0..p-1 of a list of length p reads the whole
list. -/
lemma sum_range_getD_of_length (l : List ℚ) (p : ℕ) (hl : l.length = p) :
    ((List.range p).map (fun i => l.getD i 0)).sum = l.sum := by
  subst hl
  exact sum_range_getD l

/-- C1: wherever the trend is defined, observed minus the sum of trend,
seasonal and residual is within 1e-9 of zero, for every decomposition
the Decomposer returns. -/
theorem c1_additive_identity (y : List ℚ) (p : ℕ) (d : Decomposition)
    (h : seasonal_decompose y p = .ok d) (i : ℕ) (t r : ℚ)
    (ht : d.trend[i]? = some (some t)) (hr : d.resid[i]? = some (some r)) :
    |y.getD i 0 - (t + d.seasonal.getD i 0 + r)| ≤ 1 / 1000000000 := by
  unfold seasonal_decompose at h
  split at h
  · exact Except.noConfusion h
  · injection h with h
    subst h
    simp only [List.getElem?_map] at ht hr
    rcases Nat.lt_or_ge i y.length with hi | hi
    · rw [List.getElem?_range hi] at ht hr
      simp only [Option.map_some', Option.some.injEq] at ht hr
      rw [residAt, ht] at hr
      simp only [Option.map_some', Option.some.injEq] at hr
      dsimp only
      rw [List.getD_eq_getElem?_getD ((List.range y.length).map (seasonalAt y p)) i 0,
        List.getElem?_map, List.getElem?_range hi]
      simp only [Option.map_some', Option.getD_some]
      have hz : y.getD i 0 - (t + seasonalAt y p i + r) = 0 := by
        rw [← hr]
        ring
      rw [hz]
      norm_num
    · rw [List.getElem?_eq_none (by simpa using hi)] at ht
      exact Option.noConfusion ht

/-- Witness for C1: series [1, 2, 3, 4], period 2, index 1, where the
trend is 2, the seasonal value 0 and the residual 0. -/
theorem c1_additive_identity_witness :
    |([1, 2, 3, 4] : List ℚ).getD 1 0 - (2 + exampleDecomp.seasonal.getD 1 0 + 0)|
      ≤ 1 / 1000000000 :=
  c1_additive_identity [1, 2, 3, 4] 2 exampleDecomp seasonal_decompose_example 1 2 0
    (by simp [exampleDecomp]) (by simp [exampleDecomp])

/-- C2: the period seasonal-index values of one reference cycle of the
seasonal component sum to 0 within 1e-9, for every decomposition the
Decomposer returns. -/
theorem c2_seasonal_cycle_sum (y : List ℚ) (p : ℕ) (d : Decomposition)
    (h : seasonal_decompose y p = .ok d) :
    |(d.seasonal.take p).sum| ≤ 1 / 1000000000 := by
  unfold seasonal_decompose at h
  split at h
  · exact Except.noConfusion h
  · next hn =>
    have hpn : p ≤ y.length := by omega
    injection h with h
    subst h
    show |(((List.range y.length).map (seasonalAt y p)).take p).sum| ≤ _
    rw [← List.map_take, List.take_range, inf_eq_left.mpr hpn]
    rcases Nat.eq_zero_or_pos p with hp | hp
    · subst hp
      norm_num
    · have hcong : ((List.range p).map (seasonalAt y p))
          = (List.range p).map (fun i => (seasonalIdx y p).getD i 0) := by
        apply List.map_congr_left
        intro i hi
        rw [seasonalAt, Nat.mod_eq_of_lt (List.mem_range.mp hi)]
      rw [hcong, sum_range_getD_of_length _ _ (by simp [seasonalIdx])]
      have hz : (seasonalIdx y p).sum = 0 := by
        have hp' : (p : ℚ) ≠ 0 := Nat.cast_ne_zero.mpr hp.ne'
        simp only [seasonalIdx]
        rw [sum_map_sub_const, List.length_map, List.length_range,
          mul_div_cancel₀ _ hp', sub_self]
      rw [hz]
      norm_num

/-- Witness for C2: the first two seasonal values of the decomposition of
[1, 2, 3, 4] with period 2 sum to 0. -/
theorem c2_seasonal_cycle_sum_witness :
    |(exampleDecomp.seasonal.take 2).sum| ≤ 1 / 1000000000 :=
  c2_seasonal_cycle_sum [1, 2, 3, 4] 2 exampleDecomp seasonal_decompose_example

/-- C8: the trend-present verdict of src/tm.py line 66 is true exactly
when the mean of the defined trend values differs from zero, as an exact
inequality with no tolerance band. -/
theorem c8_trend_verdict (y : List ℚ) (p : ℕ) (d : Decomposition)
    (h : seasonal_decompose y p = .ok d) :
    trendPresent d = true ↔ listMean (dropnaOpt d.trend) ≠ 0 := by
  simp [trendPresent]

/-- Witness for C8: the decomposition of [1, 2, 3, 4] with period 2. -/
theorem c8_trend_verdict_witness :
    trendPresent exampleDecomp = true ↔ listMean (dropnaOpt exampleDecomp.trend) ≠ 0 :=
  c8_trend_verdict [1, 2, 3, 4] 2 exampleDecomp seasonal_decompose_example

/-- A nonzero deviation at an in-range index makes the lag-0
autocovariance sum positive. -/
lemma acfDen_pos_of_dev {y : List ℚ} {k : ℕ} (hk : k < y.length)
    (hd : devAt y k ≠ 0) : 0 < acfDen y := by
  apply sum_pos_of_mem _ (List.mem_map.mpr ⟨k, List.mem_range.mpr hk, rfl⟩)
    (mul_self_pos.mpr hd)
  intro x hx
  obtain ⟨t, _, rfl⟩ := List.mem_map.mp hx
  exact mul_self_nonneg _

/-- A non-constant series has a nonzero lag-0 autocovariance sum. -/
lemma acfDen_ne_zero (y : List ℚ)
    (hnc : ∃ i, i < y.length ∧ ∃ j, j < y.length ∧ y.getD i 0 ≠ y.getD j 0) :
    acfDen y ≠ 0 := by
  obtain ⟨i, hi, j, hj, hne⟩ := hnc
  have hkey : devAt y i ≠ 0 ∨ devAt y j ≠ 0 := by
    by_contra hc
    push_neg at hc
    obtain ⟨h1, h2⟩ := hc
    simp only [devAt, sub_eq_zero] at h1 h2
    exact hne (h1.trans h2.symm)
  rcases hkey with hk | hk
  · exact (acfDen_pos_of_dev hi hk).ne'
  · exact (acfDen_pos_of_dev hj hk).ne'

/-- C3: for every non-constant series the ACF value at lag 0 equals
exactly 1 and the PACF value at lag 0 equals exactly 1, in the sequences
produced for the lag bound of src/tm.py line 91. -/
theorem c3_lag0_unity (y : List ℚ)
    (hnc : ∃ i, i < y.length ∧ ∃ j, j < y.length ∧ y.getD i 0 ≠ y.getD j 0) :
    (acfList y (lagBound y.length)).getD 0 0 = 1 ∧
    (pacfList y (lagBound y.length)).getD 0 0 = 1 := by
  constructor
  · simp only [acfList, List.range_succ_eq_map, List.map_cons, List.getD_cons_zero]
    rw [acfAt]
    have hnum : acfNum y 0 = acfDen y := by
      simp only [acfNum, acfDen, Nat.sub_zero, Nat.add_zero]
    rw [hnum, div_self (acfDen_ne_zero y hnc)]
  · simp only [pacfList, List.range_succ_eq_map, List.map_cons, List.getD_cons_zero]
    rfl

/-- Witness for C3: the non-constant series [1, 2]. -/
theorem c3_lag0_unity_witness :
    (acfList [1, 2] (lagBound ([1, 2] : List ℚ).length)).getD 0 0 = 1 ∧
    (pacfList [1, 2] (lagBound ([1, 2] : List ℚ).length)).getD 0 0 = 1 :=
  c3_lag0_unity [1, 2] ⟨0, by norm_num, 1, by norm_num, by norm_num⟩

/-- C7 counterexample: on the series [0, 1, 2] the zero denominator at
the second point is not skipped: the positive infinity it produces stays
in the list entering the standard-deviation computation, and the
volatility evaluates to NaN instead of failing with
NumericInstabilityError. -/
theorem c7_counterexample :
    PVal.pinf ∈ stdInput [PVal.num 0, PVal.num 1, PVal.num 2] ∧
    volatility [PVal.num 0, PVal.num 1, PVal.num 2] = PVal.nan := by
  constructor <;>
    norm_num [stdInput, returnsColumn, pctChangeV, pcStep, dropnaV, isNaN,
      volatility, stdVal, isInf, List.range_succ]

/-- C7 amended: the volatility computation of src/tm.py lines 111-112
takes the standard deviation of the percentage changes with only NaN
entries dropped; a point with zero denominator and nonzero numerator
yields an infinity that enters the standard-deviation computation, the
result is NaN, and no error is raised. -/
theorem c7_infinity_enters_std (y : List PVal) (i : ℕ) (a : ℚ)
    (hi : i + 1 < y.length) (h0 : y.getD i .nan = .num 0)
    (h1 : y.getD (i + 1) .nan = .num a) (ha : a ≠ 0) :
    (∃ v ∈ stdInput y, isInf v = true) ∧ volatility y = PVal.nan := by
  set w := pcStep (y.getD i .nan) (y.getD (i + 1) .nan) with hw
  have hwval : w = if 0 < a then PVal.pinf else PVal.ninf := by
    rw [hw, h0, h1]
    simp [pcStep, ha]
  have hinfw : isInf w = true := by
    rw [hwval]
    split <;> rfl
  have hnanw : isNaN w = false := by
    rw [hwval]
    split <;> rfl
  have hmem : w ∈ pctChangeV y := by
    rw [pctChangeV]
    refine List.mem_map.mpr ⟨i + 1, List.mem_range.mpr hi, ?_⟩
    simp [hw]
  have hmem2 : w ∈ stdInput y := by
    rw [stdInput, returnsColumn, dropnaV]
    exact List.mem_filter.mpr ⟨hmem, by rw [hnanw]; rfl⟩
  refine ⟨⟨w, hmem2, hinfw⟩, ?_⟩
  have hany : (dropnaV (returnsColumn y)).any (fun v => isInf v) = true :=
    List.any_eq_true.mpr ⟨w, hmem2, hinfw⟩
  simp [volatility, stdVal, hany]

/-- Witness for C7 amended: the series [2, 0, 3], whose third point has
denominator 0 and numerator 3. -/
theorem c7_infinity_enters_std_witness :
    volatility [PVal.num 2, PVal.num 0, PVal.num 3] = PVal.nan :=
  (c7_infinity_enters_std [PVal.num 2, PVal.num 0, PVal.num 3] 1 3
    (by norm_num) rfl rfl (by norm_num)).2

/-- C9: the volatility computation writes a Returns column holding the
percentage-change series into the caller's frame; the index and every
other column are unchanged, and the frame gains exactly that one
column. -/
theorem c9_returns_column_mutation (f : Frame) (col : List PVal)
    (hp : getCol f "Passengers" = some col)
    (hr : ∀ c ∈ f.cols, c.1 ≠ "Returns") :
    (volatilityStep f).index = f.index ∧
    getCol (volatilityStep f) "Returns" = some (returnsColumn col) ∧
    ∀ nm, nm ≠ "Returns" → getCol (volatilityStep f) nm = getCol f nm := by
  have hstep : volatilityStep f = setCol f "Returns" (returnsColumn col) := by
    rw [volatilityStep, hp]
  have hany : f.cols.any (fun c => c.1 = "Returns") = false := by
    refine List.any_eq_false.mpr (fun c hc => ?_)
    simp [hr c hc]
  have hset : setCol f "Returns" (returnsColumn col)
      = ⟨f.index, f.cols ++ [("Returns", returnsColumn col)]⟩ := by
    simp [setCol, hany]
  have hfind : f.cols.find? (fun c => c.1 = "Returns") = none := by
    refine List.find?_eq_none.mpr (fun c hc => ?_)
    simp [hr c hc]
  rw [hstep, hset]
  refine ⟨rfl, ?_, ?_⟩
  · rw [getCol]
    dsimp only
    rw [List.find?_append, hfind]
    simp [List.find?]
  · intro nm hnm
    rw [getCol, getCol]
    dsimp only
    rw [List.find?_append]
    have hlast : List.find? (fun c => c.1 = nm) [("Returns", returnsColumn col)]
        = none := by
      simp [List.find?, Ne.symm hnm]
    rw [hlast, Option.or_none]

/-- A two-row frame with only the Passengers column, used by the C9
witness. -/
def exampleFrame : Frame :=
  ⟨["m1", "m2"], [("Passengers", [PVal.num 1, PVal.num 2])]⟩

/-- Witness for C9: the two-row example frame gains the Returns column
while its index and Passengers column survive unchanged. -/
theorem c9_returns_column_mutation_witness :
    (volatilityStep exampleFrame).index = exampleFrame.index ∧
    getCol (volatilityStep exampleFrame) "Returns"
      = some (returnsColumn [PVal.num 1, PVal.num 2]) ∧
    getCol (volatilityStep exampleFrame) "Passengers"
      = getCol exampleFrame "Passengers" :=
  have h := c9_returns_column_mutation exampleFrame [PVal.num 1, PVal.num 2]
    (by simp [getCol, exampleFrame, List.find?])
    (by simp [exampleFrame])
  ⟨h.1, h.2.1, h.2.2 "Passengers" (by simp)⟩

end TimeSeriesDemo
